import Mathlib

/-!
Verification development for the librdns asynchronous DNS resolver core
(`src/contrib/librdns/dns_private.h` and the behaviour specified for it).

The pure data declarations (constants, the wire-header bitfield layout, the
state and code enumerations, the TCP channel records) are translated directly
from `dns_private.h`.  Behavioural components whose C translation units are not
part of this tree (the request state machine, TCP framing loops, the request
hash registration discipline) are modelled from the specification; each such
definition carries a doc comment saying so.
-/

namespace Rdns

/-! ### Built-in constants, from `dns_private.h` lines 35-44 -/

def dns_port : Nat := 53

def default_io_cnt : Nat := 8

def default_tcp_io_cnt : Nat := 1

def UDP_PACKET_SIZE : Nat := 4096

def DNS_D_MAXLABEL : Nat := 63

def DNS_D_MAXNAME : Nat := 253

/-! ### Wire header model, from `struct dns_header` (`dns_private.h` 48-81)

The C struct is a sequence of bitfields with two variants selected on
`BYTE_ORDER`.  On a big-endian host, bitfields are allocated from the most
significant bit of each byte downwards; on a little-endian host, from the
least significant bit upwards.  We model each variant as an extraction
function from the raw flags byte (a `Nat` below 256) so the two can be
compared. -/

/-- First flags byte of the DNS header (QR/Opcode/AA/TC/RD). -/
structure DnsFlags1 where
  qr : Nat
  opcode : Nat
  aa : Nat
  tc : Nat
  rd : Nat
  deriving DecidableEq, Repr

/-- Second flags byte of the DNS header (RA/Z/AD/CD/RCODE). -/
structure DnsFlags2 where
  ra : Nat
  z : Nat
  ad : Nat
  cd : Nat
  rcode : Nat
  deriving DecidableEq, Repr

/-- Big-endian branch of `struct dns_header`, first flags byte: the fields are
declared `qr:1, opcode:4, aa:1, tc:1, rd:1` and allocated from the most
significant bit downwards. -/
def flags1_of_byte_be (b : Nat) : DnsFlags1 :=
  { qr := b / 128 % 2
    opcode := b / 8 % 16
    aa := b / 4 % 2
    tc := b / 2 % 2
    rd := b % 2 }

/-- Little-endian branch of `struct dns_header`, first flags byte: the fields
are declared `rd:1, tc:1, aa:1, opcode:4, qr:1` and allocated from the least
significant bit upwards. -/
def flags1_of_byte_le (b : Nat) : DnsFlags1 :=
  { rd := b % 2
    tc := b / 2 % 2
    aa := b / 4 % 2
    opcode := b / 8 % 16
    qr := b / 128 % 2 }

/-- Big-endian branch of `struct dns_header`, second flags byte: the fields are
declared `ra:1, cd:1, ad:1, z:1, rcode:4` (lines 58-62) and allocated from the
most significant bit downwards, so `ra` is bit 7, `cd` bit 6, `ad` bit 5,
`z` bit 4 and `rcode` bits 3..0. -/
def flags2_of_byte_be (b : Nat) : DnsFlags2 :=
  { ra := b / 128 % 2
    cd := b / 64 % 2
    ad := b / 32 % 2
    z := b / 16 % 2
    rcode := b % 16 }

/-- Little-endian branch of `struct dns_header`, second flags byte: the fields
are declared `rcode:4, z:1, ad:1, cd:1, ra:1` (lines 70-74) and allocated from
the least significant bit upwards, so `rcode` is bits 3..0, `z` bit 4, `ad`
bit 5, `cd` bit 6 and `ra` bit 7. -/
def flags2_of_byte_le (b : Nat) : DnsFlags2 :=
  { rcode := b % 16
    z := b / 16 % 2
    ad := b / 32 % 2
    cd := b / 64 % 2
    ra := b / 128 % 2 }

/-- The layout the specification states for the second flags byte: from most
to least significant bit, `RA(1), Z(1), AD(1), CD(1), RCODE(4)` (this is also
the RFC 2535 layout).  Written from the words of the spec, to be compared
with the extraction functions taken from the source. -/
def flags2_spec_layout (b : Nat) : DnsFlags2 :=
  { ra := b / 128 % 2
    z := b / 64 % 2
    ad := b / 32 % 2
    cd := b / 16 % 2
    rcode := b % 16 }

/-- Full DNS wire header, fields of `struct dns_header`. -/
structure dns_header where
  qid : Nat
  qr : Nat
  opcode : Nat
  aa : Nat
  tc : Nat
  rd : Nat
  ra : Nat
  z : Nat
  ad : Nat
  cd : Nat
  rcode : Nat
  qdcount : Nat
  ancount : Nat
  nscount : Nat
  arcount : Nat
  deriving DecidableEq, Repr

/-- Bounds making each field fit its declared bit width. -/
def dns_header.WF (h : dns_header) : Prop :=
  h.qid < 65536 ∧ h.qr < 2 ∧ h.opcode < 16 ∧ h.aa < 2 ∧ h.tc < 2 ∧ h.rd < 2 ∧
  h.ra < 2 ∧ h.z < 2 ∧ h.ad < 2 ∧ h.cd < 2 ∧ h.rcode < 16 ∧
  h.qdcount < 65536 ∧ h.ancount < 65536 ∧ h.nscount < 65536 ∧ h.arcount < 65536

instance (h : dns_header) : Decidable h.WF := by
  unfold dns_header.WF; infer_instance

/-- First flags byte value of a header, per the struct layout. -/
def dns_header.flags1_byte (h : dns_header) : Nat :=
  h.qr * 128 + h.opcode * 8 + h.aa * 4 + h.tc * 2 + h.rd

/-- Second flags byte value of a header, per the struct layout (`ra` bit 7,
`cd` bit 6, `ad` bit 5, `z` bit 4, `rcode` bits 3..0 on both endiannesses). -/
def dns_header.flags2_byte (h : dns_header) : Nat :=
  h.ra * 128 + h.cd * 64 + h.ad * 32 + h.z * 16 + h.rcode

/-- The 12 bytes of the header on the wire, network (big-endian) order:
16-bit transaction id, the two flags bytes, then the four 16-bit counts. -/
def dns_header.toBytes (h : dns_header) : List Nat :=
  [h.qid / 256, h.qid % 256,
   h.flags1_byte, h.flags2_byte,
   h.qdcount / 256, h.qdcount % 256,
   h.ancount / 256, h.ancount % 256,
   h.nscount / 256, h.nscount % 256,
   h.arcount / 256, h.arcount % 256]

/-- Parse the 12 wire bytes back into a header (using the struct layout for
the two flags bytes). -/
def dns_header.ofBytes (bs : List Nat) : Option dns_header :=
  match bs with
  | [q1, q0, f1, f2, qd1, qd0, an1, an0, ns1, ns0, ar1, ar0] =>
    let g1 := flags1_of_byte_be f1
    let g2 := flags2_of_byte_be f2
    some { qid := q1 * 256 + q0
           qr := g1.qr, opcode := g1.opcode, aa := g1.aa, tc := g1.tc, rd := g1.rd
           ra := g2.ra, z := g2.z, ad := g2.ad, cd := g2.cd, rcode := g2.rcode
           qdcount := qd1 * 256 + qd0
           ancount := an1 * 256 + an0
           nscount := ns1 * 256 + ns0
           arcount := ar1 * 256 + ar0 }
  | _ => none

/-- Total bit width of the header fields as declared in the struct:
qid 16, flags1 = 1+4+1+1+1, flags2 = 1+1+1+1+4, four counts of 16. -/
def dns_header_bits : Nat :=
  16 + (1 + 4 + 1 + 1 + 1) + (1 + 1 + 1 + 1 + 4) + 16 + 16 + 16 + 16

/-! ### Request lifecycle states, from `enum rdns_request_state` (98-107) -/

inductive rdns_request_state where
  | RDNS_REQUEST_NEW
  | RDNS_REQUEST_REGISTERED
  | RDNS_REQUEST_WAIT_SEND
  | RDNS_REQUEST_WAIT_REPLY
  | RDNS_REQUEST_REPLIED
  | RDNS_REQUEST_FAKE
  | RDNS_REQUEST_ERROR
  | RDNS_REQUEST_TCP
  deriving DecidableEq, Repr, Fintype

open rdns_request_state

/-- Numeric values of the enum constants (`NEW = 0`, `REGISTERED = 1`, the
rest follow in declaration order). -/
def rdns_request_state.val : rdns_request_state → Nat
  | RDNS_REQUEST_NEW => 0
  | RDNS_REQUEST_REGISTERED => 1
  | RDNS_REQUEST_WAIT_SEND => 2
  | RDNS_REQUEST_WAIT_REPLY => 3
  | RDNS_REQUEST_REPLIED => 4
  | RDNS_REQUEST_FAKE => 5
  | RDNS_REQUEST_ERROR => 6
  | RDNS_REQUEST_TCP => 7

/-- The eight states, as listed by the specification. -/
def rdns_request_state.listing : List rdns_request_state :=
  [RDNS_REQUEST_NEW, RDNS_REQUEST_REGISTERED, RDNS_REQUEST_WAIT_SEND,
   RDNS_REQUEST_WAIT_REPLY, RDNS_REQUEST_REPLIED, RDNS_REQUEST_ERROR,
   RDNS_REQUEST_FAKE, RDNS_REQUEST_TCP]

/-! ### Result codes

`dns_private.h` provides the message table `dns_rcodes` (307-322) indexed by
the `enum dns_rcode` constants; the enum itself lives in `rdns.h`, which is
not part of this tree, so the constructors are those the table indexes. -/

inductive dns_rcode where
  | RDNS_RC_NOERROR
  | RDNS_RC_FORMERR
  | RDNS_RC_SERVFAIL
  | RDNS_RC_NXDOMAIN
  | RDNS_RC_NOTIMP
  | RDNS_RC_REFUSED
  | RDNS_RC_YXDOMAIN
  | RDNS_RC_YXRRSET
  | RDNS_RC_NXRRSET
  | RDNS_RC_NOTAUTH
  | RDNS_RC_NOTZONE
  | RDNS_RC_TIMEOUT
  | RDNS_RC_NETERR
  | RDNS_RC_NOREC
  deriving DecidableEq, Repr, Fintype

open dns_rcode

/-- The message table `dns_rcodes` from `dns_private.h` 307-322. -/
def dns_rcodes : dns_rcode → String
  | RDNS_RC_NOERROR => "no error"
  | RDNS_RC_FORMERR => "query format error"
  | RDNS_RC_SERVFAIL => "server fail"
  | RDNS_RC_NXDOMAIN => "no records with this name"
  | RDNS_RC_NOTIMP => "not implemented"
  | RDNS_RC_REFUSED => "query refused"
  | RDNS_RC_YXDOMAIN => "YXDOMAIN"
  | RDNS_RC_YXRRSET => "YXRRSET"
  | RDNS_RC_NXRRSET => "NXRRSET"
  | RDNS_RC_NOTAUTH => "not authorized"
  | RDNS_RC_NOTZONE => "no such zone"
  | RDNS_RC_TIMEOUT => "query timed out"
  | RDNS_RC_NETERR => "network error"
  | RDNS_RC_NOREC => "requested record is not found"

/-- The fourteen codes, in table order. -/
def dns_rcode.listing : List dns_rcode :=
  [RDNS_RC_NOERROR, RDNS_RC_FORMERR, RDNS_RC_SERVFAIL, RDNS_RC_NXDOMAIN,
   RDNS_RC_NOTIMP, RDNS_RC_REFUSED, RDNS_RC_YXDOMAIN, RDNS_RC_YXRRSET,
   RDNS_RC_NXRRSET, RDNS_RC_NOTAUTH, RDNS_RC_NOTZONE, RDNS_RC_TIMEOUT,
   RDNS_RC_NETERR, RDNS_RC_NOREC]

/-! ### Request lifecycle machine

Modelled from the spec: the request state machine of §4.3 (its C translation
unit is not part of this tree; `dns_private.h` only declares the state enum
and `struct rdns_request`).  The observation record tracks, besides the
state, how often the continuation has been invoked, whether the request is
registered in its channel index, whether it was cancelled, and the result
codes delivered through the continuation. -/

inductive ReqEvent where
  | register
  | queue_send
  | flushed
  | reply (rc : dns_rcode)
  | retransmit
  | fail (rc : dns_rcode)
  | cancel
  | serve_fake
  | escalate_tcp
  deriving DecidableEq, Repr

structure ReqObs where
  st : rdns_request_state
  cbCount : Nat
  inIndex : Bool
  cancelled : Bool
  delivered : List dns_rcode
  deriving DecidableEq, Repr

/-- `REPLIED` and `ERROR` are the terminal states. -/
def rdns_request_state.isTerminal : rdns_request_state → Bool
  | RDNS_REQUEST_REPLIED => true
  | RDNS_REQUEST_ERROR => true
  | _ => false

/-- Terminal transition: deregister from the channel index and invoke the
continuation once, recording the result code it carries. -/
def ReqObs.deliver (o : ReqObs) (s : rdns_request_state) (rc : dns_rcode) : ReqObs :=
  { o with st := s, cbCount := o.cbCount + 1, inIndex := false,
           delivered := o.delivered ++ [rc] }

/-- Modelled from the spec: one transition of the request lifecycle (§4.3).
A cancelled request is deregistered and absorbs every later event without
invoking the continuation (§5); terminal states absorb.  `fail` is the
`*→ERROR` transition; `serve_fake`/`reply` is the FAKE side path (§4.5);
`escalate_tcp` and the `TCP → WAIT_SEND` step restart the send cycle after
UDP truncation. -/
def reqStep (o : ReqObs) (e : ReqEvent) : ReqObs :=
  if o.cancelled || o.st.isTerminal then o
  else
    match e, o.st with
    | .cancel, _ => { o with cancelled := true, inIndex := false }
    | .register, RDNS_REQUEST_NEW =>
      { o with st := RDNS_REQUEST_REGISTERED, inIndex := true }
    | .serve_fake, RDNS_REQUEST_NEW => { o with st := RDNS_REQUEST_FAKE }
    | .queue_send, RDNS_REQUEST_REGISTERED => { o with st := RDNS_REQUEST_WAIT_SEND }
    | .queue_send, RDNS_REQUEST_TCP => { o with st := RDNS_REQUEST_WAIT_SEND }
    | .flushed, RDNS_REQUEST_WAIT_SEND => { o with st := RDNS_REQUEST_WAIT_REPLY }
    | .reply rc, RDNS_REQUEST_WAIT_REPLY => o.deliver RDNS_REQUEST_REPLIED rc
    | .reply rc, RDNS_REQUEST_FAKE => o.deliver RDNS_REQUEST_REPLIED rc
    | .retransmit, RDNS_REQUEST_WAIT_REPLY => { o with st := RDNS_REQUEST_WAIT_SEND }
    | .escalate_tcp, RDNS_REQUEST_WAIT_REPLY => { o with st := RDNS_REQUEST_TCP }
    | .fail rc, _ => o.deliver RDNS_REQUEST_ERROR rc
    | _, _ => o

def reqInit : ReqObs :=
  { st := RDNS_REQUEST_NEW, cbCount := 0, inIndex := false,
    cancelled := false, delivered := [] }

def reqRun (evs : List ReqEvent) : ReqObs :=
  evs.foldl reqStep reqInit

/-- Lifecycle invariant: terminal states have fired the continuation exactly
once with one result code and are deregistered; non-terminal states have
never fired it; cancelled requests are deregistered, non-terminal and have
never fired it. -/
def ReqInv (o : ReqObs) : Prop :=
  (o.st.isTerminal = true →
    o.cbCount = 1 ∧ o.inIndex = false ∧ o.cancelled = false ∧
    o.delivered.length = 1) ∧
  (o.st.isTerminal = false → o.cbCount = 0 ∧ o.delivered = []) ∧
  (o.cancelled = true → o.inIndex = false ∧ o.st.isTerminal = false)

/-! ### Per-channel request index

Modelled from the spec: the registration discipline over
`khash_t(rdns_requests_hash)` (`dns_private.h` 179, 193): keys are unique
within a channel, and a duplicate transaction id at registration is a
programming-contract violation that is surfaced as a fatal error and never
retried. -/

abbrev RequestsTable := List (Int × Nat)

def tbl_keys (t : RequestsTable) : List Int :=
  t.map Prod.fst

inductive PutResult where
  | ok (t : RequestsTable)
  | dup_id
  deriving DecidableEq, Repr

/-- Modelled from the spec: inserting a request under its transaction id;
a key already present is reported as a duplicate, the table unchanged. -/
def kh_put (t : RequestsTable) (id : Int) (req : Nat) : PutResult :=
  if id ∈ tbl_keys t then .dup_id else .ok (t ++ [(id, req)])

/-- Remove a transaction id from the index. -/
def kh_del (t : RequestsTable) (id : Int) : RequestsTable :=
  t.filter (fun p => p.1 != id)

structure ChanIndex where
  tbl : RequestsTable
  fatal_dup : Nat
  deriving DecidableEq, Repr

inductive IdxOp where
  | register (id : Int) (req : Nat)
  | deregister (id : Int)
  deriving DecidableEq, Repr

/-- Modelled from the spec: a duplicate registration counts a fatal
contract violation and performs no insertion (no retry). -/
def idxStep (s : ChanIndex) (op : IdxOp) : ChanIndex :=
  match op with
  | .register id req =>
    match kh_put s.tbl id req with
    | .ok t => { s with tbl := t }
    | .dup_id => { s with fatal_dup := s.fatal_dup + 1 }
  | .deregister id => { s with tbl := kh_del s.tbl id }

def idxRun (ops : List IdxOp) : ChanIndex :=
  ops.foldl idxStep { tbl := [], fatal_dup := 0 }

/-! ### TCP framing, read path

The state fields are those of `struct rdns_tcp_channel` (165-177):
`next_read_size` is kept as the raw network-order prefix bytes until both
are read (`waitLen`), then as the host-order length (`waitBody`), together
with `cur_read`/`cur_read_buf` represented by the accumulated buffer. -/

inductive TcpReadState where
  | waitLen (len_bytes : List Nat)
  | waitBody (next_read_size : Nat) (cur_read_buf : List Nat)
  deriving DecidableEq, Repr

/-- Modelled from the spec: the incremental read loop of §4.4.  The first two
bytes are the big-endian length prefix; once both are present the expected
length becomes `b0 * 256 + b1` (host order); the payload then accumulates
until complete, at which point the message is emitted and the framing state
resets. -/
def tcp_read_byte : TcpReadState → Nat → TcpReadState × Option (List Nat)
  | .waitLen [], b => (.waitLen [b], none)
  | .waitLen (b0 :: _), b1 =>
    let n := b0 * 256 + b1
    if n = 0 then (.waitLen [], some [])
    else (.waitBody n [], none)
  | .waitBody n buf, b =>
    if buf.length + 1 = n then (.waitLen [], some (buf ++ [b]))
    else (.waitBody n (buf ++ [b]), none)

/-- Feed a byte stream through the framing layer, collecting the complete
messages in emission order. -/
def tcp_read_stream : TcpReadState → List Nat → TcpReadState × List (List Nat)
  | s, [] => (s, [])
  | s, b :: rest =>
    let p := tcp_read_byte s b
    let q := tcp_read_stream p.1 rest
    (q.1, (match p.2 with | some msg => [msg] | none => []) ++ q.2)

/-- A message on a TCP connection, preceded by its 2-byte big-endian length
prefix. -/
def tcp_frame_encode (msg : List Nat) : List Nat :=
  msg.length / 256 :: msg.length % 256 :: msg

/-- Number of in-progress incoming messages held by the framing state. -/
def tcp_in_progress : TcpReadState → Nat
  | .waitLen _ => 0
  | .waitBody _ _ => 1

/-! ### TCP framing, write path

`struct rdns_tcp_output_chain` (155-160) with `write_buf` as the bytes to
send and `cur_write` the count already written; the channel keeps the chain
in insertion order.  The `emitted`/`appended` fields of the channel record
are observation ghosts: the bytes the peer has seen and every buffer ever
appended, in order. -/

structure rdns_tcp_output_chain where
  write_buf : List Nat
  cur_write : Nat
  deriving DecidableEq, Repr

structure TcpOutState where
  output_chain : List rdns_tcp_output_chain
  emitted : List Nat
  appended : List (List Nat)
  deriving DecidableEq, Repr

inductive OutOp where
  | append (buf : List Nat)
  | flush (k : Nat)
  deriving DecidableEq, Repr

/-- Modelled from the spec: the write path of §4.4.  `append` enqueues a new
entry at the tail (allowed at any time); `flush k` writes up to `k` bytes of
the head entry, updating its `cur_write`, and evicts it only once fully
written. -/
def outStep (s : TcpOutState) (op : OutOp) : TcpOutState :=
  match op with
  | .append buf =>
    { s with output_chain := s.output_chain ++ [{ write_buf := buf, cur_write := 0 }],
             appended := s.appended ++ [buf] }
  | .flush k =>
    match s.output_chain with
    | [] => s
    | e :: rest =>
      let w := min k (e.write_buf.length - e.cur_write)
      let cw := e.cur_write + w
      { s with
        output_chain :=
          if e.write_buf.length ≤ cw then rest
          else { write_buf := e.write_buf, cur_write := cw } :: rest,
        emitted := s.emitted ++ (e.write_buf.drop e.cur_write).take w }

def outInit : TcpOutState :=
  { output_chain := [], emitted := [], appended := [] }

def outRun (ops : List OutOp) : TcpOutState :=
  ops.foldl outStep outInit

/-- Bytes still owed to the peer: the unwritten suffix of every chain entry,
in chain order. -/
def out_pending (s : TcpOutState) : List Nat :=
  (s.output_chain.map (fun e => e.write_buf.drop e.cur_write)).flatten

/-- Write-chain invariant: the peer-observed bytes followed by the still
pending bytes are exactly the appended buffers in insertion order; every
entry has written no more than its buffer; only the head entry can be
partially written. -/
def OutInv (s : TcpOutState) : Prop :=
  s.emitted ++ out_pending s = s.appended.flatten ∧
  (∀ e ∈ s.output_chain, e.cur_write ≤ e.write_buf.length) ∧
  (∀ e ∈ s.output_chain.tail, e.cur_write = 0)

/-! ### Query types, from `enum dns_type` (`dns_private.h` 289-304) -/

/-- Modelled from the spec: `enum rdns_request_type` is declared in `rdns.h`,
which is not part of this tree; per the spec its enumerated values are reused
as wire type codes, so each constant carries the standard DNS RR type
number. -/
inductive rdns_request_type where
  | RDNS_REQUEST_A
  | RDNS_REQUEST_NS
  | RDNS_REQUEST_SOA
  | RDNS_REQUEST_PTR
  | RDNS_REQUEST_MX
  | RDNS_REQUEST_TXT
  | RDNS_REQUEST_SRV
  | RDNS_REQUEST_SPF
  | RDNS_REQUEST_AAAA
  | RDNS_REQUEST_TLSA
  | RDNS_REQUEST_ANY
  deriving DecidableEq, Repr, Fintype

/-- Modelled from the spec: numeric values of the `rdns_request_type`
constants (`rdns.h`). -/
def rdns_request_type.val : rdns_request_type → Nat
  | .RDNS_REQUEST_A => 1
  | .RDNS_REQUEST_NS => 2
  | .RDNS_REQUEST_SOA => 6
  | .RDNS_REQUEST_PTR => 12
  | .RDNS_REQUEST_MX => 15
  | .RDNS_REQUEST_TXT => 16
  | .RDNS_REQUEST_SRV => 33
  | .RDNS_REQUEST_SPF => 99
  | .RDNS_REQUEST_AAAA => 28
  | .RDNS_REQUEST_TLSA => 52
  | .RDNS_REQUEST_ANY => 255

inductive dns_type where
  | DNS_T_A
  | DNS_T_NS
  | DNS_T_CNAME
  | DNS_T_SOA
  | DNS_T_PTR
  | DNS_T_MX
  | DNS_T_TXT
  | DNS_T_AAAA
  | DNS_T_SRV
  | DNS_T_OPT
  | DNS_T_SSHFP
  | DNS_T_TLSA
  | DNS_T_SPF
  | DNS_T_ALL
  deriving DecidableEq, Repr, Fintype

/-- Values of `enum dns_type` exactly as initialized in the source: the
aliased constants take the corresponding `RDNS_REQUEST_` value, while
`CNAME = 5`, `OPT = 41` and `SSHFP = 44` are explicit literals. -/
def dns_type.val : dns_type → Nat
  | .DNS_T_A => rdns_request_type.RDNS_REQUEST_A.val
  | .DNS_T_NS => rdns_request_type.RDNS_REQUEST_NS.val
  | .DNS_T_CNAME => 5
  | .DNS_T_SOA => rdns_request_type.RDNS_REQUEST_SOA.val
  | .DNS_T_PTR => rdns_request_type.RDNS_REQUEST_PTR.val
  | .DNS_T_MX => rdns_request_type.RDNS_REQUEST_MX.val
  | .DNS_T_TXT => rdns_request_type.RDNS_REQUEST_TXT.val
  | .DNS_T_AAAA => rdns_request_type.RDNS_REQUEST_AAAA.val
  | .DNS_T_SRV => rdns_request_type.RDNS_REQUEST_SRV.val
  | .DNS_T_OPT => 41
  | .DNS_T_SSHFP => 44
  | .DNS_T_TLSA => rdns_request_type.RDNS_REQUEST_TLSA.val
  | .DNS_T_SPF => rdns_request_type.RDNS_REQUEST_SPF.val
  | .DNS_T_ALL => rdns_request_type.RDNS_REQUEST_ANY.val

/-- The aliasing written in the `dns_type` initializers: which `dns_type`
constant each request type is aliased to (`ANY` to `DNS_T_ALL`). -/
def dns_type_of_request : rdns_request_type → dns_type
  | .RDNS_REQUEST_A => .DNS_T_A
  | .RDNS_REQUEST_NS => .DNS_T_NS
  | .RDNS_REQUEST_SOA => .DNS_T_SOA
  | .RDNS_REQUEST_PTR => .DNS_T_PTR
  | .RDNS_REQUEST_MX => .DNS_T_MX
  | .RDNS_REQUEST_TXT => .DNS_T_TXT
  | .RDNS_REQUEST_SRV => .DNS_T_SRV
  | .RDNS_REQUEST_SPF => .DNS_T_SPF
  | .RDNS_REQUEST_AAAA => .DNS_T_AAAA
  | .RDNS_REQUEST_TLSA => .DNS_T_TLSA
  | .RDNS_REQUEST_ANY => .DNS_T_ALL

/-- Modelled from the spec: the DNS wire-format RR type codes of the IANA
registry for the aliased query types (A 1, NS 2, SOA 6, PTR 12, MX 15,
TXT 16, AAAA 28, SRV 33, TLSA 52, SPF 99, ANY 255). -/
def wire_type_code : rdns_request_type → Nat
  | .RDNS_REQUEST_A => 1
  | .RDNS_REQUEST_NS => 2
  | .RDNS_REQUEST_SOA => 6
  | .RDNS_REQUEST_PTR => 12
  | .RDNS_REQUEST_MX => 15
  | .RDNS_REQUEST_TXT => 16
  | .RDNS_REQUEST_SRV => 33
  | .RDNS_REQUEST_SPF => 99
  | .RDNS_REQUEST_AAAA => 28
  | .RDNS_REQUEST_TLSA => 52
  | .RDNS_REQUEST_ANY => 255

/-! ## Theorems -/

/-- C10: the built-in defaults and limits are nameserver port 53, 8 UDP and
1 TCP I/O channel per server, a 4096-byte UDP packet buffer, and name limits
of 63 bytes per label and 253 bytes per full name. -/
theorem resolver_default_constants :
    dns_port = 53 ∧ default_io_cnt = 8 ∧ default_tcp_io_cnt = 1 ∧
    UDP_PACKET_SIZE = 4096 ∧ DNS_D_MAXLABEL = 63 ∧ DNS_D_MAXNAME = 253 := by
  decide

/-- C6: the request lifecycle state type consists of exactly the states NEW,
REGISTERED, WAIT_SEND, WAIT_REPLY, REPLIED, ERROR and the side states FAKE
and TCP — eight in all, pairwise distinct, and every state value is exactly
one of them (each appears once in the listing). -/
theorem request_state_enumeration :
    rdns_request_state.listing.Nodup ∧
    (∀ s : rdns_request_state, rdns_request_state.listing.count s = 1) ∧
    Fintype.card rdns_request_state = 8 := by
  decide

/-- C9: for every aliased query type the `dns_type` enumerated value equals
the `rdns_request_type` value and both equal the DNS wire-format type code,
so the internal-to-wire mapping is the identity on these values. -/
theorem request_type_wire_identity :
    ∀ t : rdns_request_type,
      (dns_type_of_request t).val = t.val ∧ t.val = wire_type_code t := by
  decide

set_option maxRecDepth 8192 in
/-- C1: divergence of the second flags byte.  Both endianness branches of
`struct dns_header` lay the byte out identically — so the wire layout is
endianness-independent — but they place CD at bit 6 and Z at bit 4, while
the specified layout RA(1), Z(1), AD(1), CD(1), RCODE(4) puts Z at bit 6 and
CD at bit 4: on the byte 0x40 the code reads CD = 1 and Z = 0 where the
specified layout reads Z = 1 and CD = 0. -/
theorem flags2_layout_divergence :
    (∀ b : Fin 256, flags2_of_byte_be b.val = flags2_of_byte_le b.val) ∧
    flags2_of_byte_be 64 =
      { ra := 0, z := 0, ad := 0, cd := 1, rcode := 0 } ∧
    flags2_spec_layout 64 =
      { ra := 0, z := 1, ad := 0, cd := 0, rcode := 0 } ∧
    flags2_of_byte_be 64 ≠ flags2_spec_layout 64 := by
  decide

/-- C8: the wire header model is bit-exact over 12 bytes: 16-bit transaction
id, a first flags byte laid out QR(1), Opcode(4), AA(1), TC(1), RD(1) from
most to least significant bit, a second flags byte, and four 16-bit counts —
96 bits in total; the two endianness branches give the same first flags
byte, and encoding then parsing the 12 wire bytes returns the header. -/
theorem header_bit_exact :
    ∀ h : dns_header, h.WF →
      h.toBytes.length = 12 ∧
      dns_header.ofBytes h.toBytes = some h ∧
      h.flags1_byte = h.qr * 128 + h.opcode * 8 + h.aa * 4 + h.tc * 2 + h.rd ∧
      flags1_of_byte_be h.flags1_byte =
        { qr := h.qr, opcode := h.opcode, aa := h.aa, tc := h.tc, rd := h.rd } ∧
      (∀ b : Fin 256, flags1_of_byte_be b.val = flags1_of_byte_le b.val) ∧
      dns_header_bits = 96 := by
  intro h hwf
  obtain ⟨qid, qr, opcode, aa, tc, rd, ra, z, ad, cd, rcode, qdc, anc, nsc, arc⟩ := h
  have hwf2 : qid < 65536 ∧ qr < 2 ∧ opcode < 16 ∧ aa < 2 ∧ tc < 2 ∧ rd < 2 ∧
      ra < 2 ∧ z < 2 ∧ ad < 2 ∧ cd < 2 ∧ rcode < 16 ∧ qdc < 65536 ∧
      anc < 65536 ∧ nsc < 65536 ∧ arc < 65536 := hwf
  obtain ⟨w1, w2, w3, w4, w5, w6, w7, w8, w9, w10, w11, w12, w13, w14, w15⟩ := hwf2
  refine ⟨rfl, ?_, rfl, ?_, ?_, rfl⟩
  · simp only [dns_header.toBytes, dns_header.ofBytes, flags1_of_byte_be,
      flags2_of_byte_be, dns_header.flags1_byte, dns_header.flags2_byte,
      Option.some.injEq, dns_header.mk.injEq]
    omega
  · simp only [flags1_of_byte_be, dns_header.flags1_byte, dns_header.mk.injEq,
      DnsFlags1.mk.injEq]
    omega
  · intro b
    simp only [flags1_of_byte_be, flags1_of_byte_le]

/-- Witness for C8 at a concrete well-formed header. -/
theorem header_bit_exact_witness :
    dns_header.ofBytes
        (dns_header.toBytes
          { qid := 4660, qr := 1, opcode := 2, aa := 0, tc := 1, rd := 1,
            ra := 1, z := 0, ad := 1, cd := 0, rcode := 3,
            qdcount := 1, ancount := 2, nscount := 0, arcount := 515 }) =
      some
        { qid := 4660, qr := 1, opcode := 2, aa := 0, tc := 1, rd := 1,
          ra := 1, z := 0, ad := 1, cd := 0, rcode := 3,
          qdcount := 1, ancount := 2, nscount := 0, arcount := 515 } :=
  (header_bit_exact
    { qid := 4660, qr := 1, opcode := 2, aa := 0, tc := 1, rd := 1,
      ra := 1, z := 0, ad := 1, cd := 0, rcode := 3,
      qdcount := 1, ancount := 2, nscount := 0, arcount := 515 }
    (by decide)).2.1

theorem reqStep_inv (o : ReqObs) (e : ReqEvent) (h : ReqInv o) :
    ReqInv (reqStep o e) := by
  by_cases hcanc : o.cancelled = true
  · have habs : reqStep o e = o := by simp [reqStep, hcanc]
    rw [habs]; exact h
  by_cases hterm : o.st.isTerminal = true
  · have habs : reqStep o e = o := by simp [reqStep, hterm]
    rw [habs]; exact h
  · have hc : o.cancelled = false := by simpa using hcanc
    have ht : o.st.isTerminal = false := by simpa using hterm
    obtain ⟨hcb, hdel⟩ := h.2.1 ht
    cases e <;> cases hst : o.st <;>
      simp_all [reqStep, ReqInv, ReqObs.deliver, rdns_request_state.isTerminal]

theorem reqFold_inv (evs : List ReqEvent) :
    ∀ o : ReqObs, ReqInv o → ReqInv (evs.foldl reqStep o) := by
  induction evs with
  | nil => intro o h; exact h
  | cons e rest ih => intro o h; exact ih _ (reqStep_inv o e h)

theorem reqRun_inv (evs : List ReqEvent) : ReqInv (reqRun evs) := by
  refine reqFold_inv evs reqInit ?_
  refine ⟨?_, ?_, ?_⟩ <;> intro hx <;> simp [reqInit, rdns_request_state.isTerminal] at hx ⊢

/-- C2: every request reaching a terminal state (REPLIED or ERROR) has been
deregistered from its channel index and its continuation has been invoked
exactly once; a request cancelled before any terminal state never has its
continuation invoked and is deregistered. -/
theorem terminal_continuation_exactly_once :
    ∀ evs : List ReqEvent,
      ((reqRun evs).st.isTerminal = true →
        (reqRun evs).cbCount = 1 ∧ (reqRun evs).inIndex = false) ∧
      ((reqRun evs).cancelled = true →
        (reqRun evs).cbCount = 0 ∧ (reqRun evs).inIndex = false) := by
  intro evs
  obtain ⟨hterm, hnon, hcanc⟩ := reqRun_inv evs
  constructor
  · intro ht
    exact ⟨(hterm ht).1, (hterm ht).2.1⟩
  · intro hcc
    obtain ⟨hidx, hnt⟩ := hcanc hcc
    exact ⟨(hnon hnt).1, hidx⟩

/-- Witness for C2: a run reaching REPLIED has fired its continuation once
and is deregistered. -/
theorem terminal_continuation_exactly_once_witness :
    (reqRun [.register, .queue_send, .flushed, .reply .RDNS_RC_NOERROR]).cbCount = 1 ∧
    (reqRun [.register, .queue_send, .flushed, .reply .RDNS_RC_NOERROR]).inIndex = false :=
  (terminal_continuation_exactly_once
    [.register, .queue_send, .flushed, .reply .RDNS_RC_NOERROR]).1 (by decide)

/-- C7: the result codes surfaced to callers are exactly the fourteen
enumerated ones (each appears once in the table listing, and the type has
exactly fourteen values, each with its message string), and every terminal
outcome of the request lifecycle — failure as much as success — is delivered
through the single continuation mechanism carrying one of these codes. -/
theorem rcode_enumeration_and_delivery :
    dns_rcode.listing.Nodup ∧
    (∀ c : dns_rcode, c ∈ dns_rcode.listing ∧ dns_rcodes c ≠ "") ∧
    Fintype.card dns_rcode = 14 ∧
    (∀ evs : List ReqEvent, (reqRun evs).st.isTerminal = true →
      (reqRun evs).cbCount = 1 ∧ ∃ c : dns_rcode, (reqRun evs).delivered = [c]) := by
  refine ⟨by decide, by decide, by decide, ?_⟩
  intro evs ht
  obtain ⟨hterm, _, _⟩ := reqRun_inv evs
  obtain ⟨hcb, _, _, hlen⟩ := hterm ht
  exact ⟨hcb, List.length_eq_one.mp hlen⟩

/-- Witness for C7: a run failing with a timeout delivers exactly that code
through the continuation. -/
theorem rcode_enumeration_and_delivery_witness :
    (reqRun [.register, .queue_send, .flushed, .fail .RDNS_RC_TIMEOUT]).cbCount = 1 ∧
    ∃ c : dns_rcode,
      (reqRun [.register, .queue_send, .flushed, .fail .RDNS_RC_TIMEOUT]).delivered = [c] :=
  rcode_enumeration_and_delivery.2.2.2
    [.register, .queue_send, .flushed, .fail .RDNS_RC_TIMEOUT] (by decide)

theorem tcp_read_stream_cons (s : TcpReadState) (b : Nat) (rest : List Nat) :
    tcp_read_stream s (b :: rest) =
      ((tcp_read_stream (tcp_read_byte s b).1 rest).1,
       (match (tcp_read_byte s b).2 with
        | some msg => [msg]
        | none => []) ++ (tcp_read_stream (tcp_read_byte s b).1 rest).2) := rfl

theorem tcp_read_stream_body (rest : List Nat) :
    ∀ (n : Nat) (buf : List Nat), buf.length + rest.length = n → rest ≠ [] →
      tcp_read_stream (.waitBody n buf) rest = (.waitLen [], [buf ++ rest]) := by
  induction rest with
  | nil => intro n buf _ hne; exact absurd rfl hne
  | cons b rest2 ih =>
    intro n buf hlen _
    cases rest2 with
    | nil =>
      have hb : buf.length + 1 = n := by simpa using hlen
      simp [tcp_read_stream, tcp_read_byte, hb]
    | cons b2 rest3 =>
      have hne2 : ¬ buf.length + 1 = n := by
        simp only [List.length_cons] at hlen; omega
      have hstep : tcp_read_byte (.waitBody n buf) b =
          (.waitBody n (buf ++ [b]), none) := by
        simp [tcp_read_byte, hne2]
      have hlen2 : (buf ++ [b]).length + (b2 :: rest3).length = n := by
        simp only [List.length_append, List.length_cons, List.length_cons,
          List.length_nil] at hlen ⊢
        omega
      have hrec := ih n (buf ++ [b]) hlen2 (by simp)
      rw [tcp_read_stream_cons, hstep]
      dsimp only
      rw [hrec]
      simp

/-- C3: every TCP message is preceded by a 2-byte big-endian length prefix
holding the byte length of the message: feeding the prefixed frame to the
framing layer yields exactly that message and resets the state; the
expected-length field stays raw prefix bytes (network order) until both are
read, becoming the host-order value `b0 * 256 + b1` at that point; and any
expected length produced from the two prefix bytes is below 2^16. -/
theorem tcp_length_prefix_framing :
    ∀ msg : List Nat, msg.length < 65536 → msg ≠ [] →
      tcp_read_stream (.waitLen []) (tcp_frame_encode msg) = (.waitLen [], [msg]) ∧
      tcp_read_byte (.waitLen [msg.length / 256]) (msg.length % 256) =
        (.waitBody msg.length [], none) ∧
      (∀ b0 b1 : Nat, b0 < 256 → b1 < 256 →
        (tcp_read_byte (.waitLen [b0]) b1).1 = .waitBody (b0 * 256 + b1) [] →
        b0 * 256 + b1 < 65536) := by
  intro msg hlt hne
  have hlen0 : msg.length ≠ 0 := by simpa using hne
  have hcomb : msg.length / 256 * 256 + msg.length % 256 = msg.length := by omega
  have h2 : tcp_read_byte (.waitLen [msg.length / 256]) (msg.length % 256) =
      (.waitBody msg.length [], none) := by
    simp only [tcp_read_byte, hcomb]
    rw [if_neg hlen0]
  refine ⟨?_, h2, ?_⟩
  · have h3 := tcp_read_stream_body msg msg.length ([] : List Nat) (by simp) hne
    have h1 : tcp_read_byte (.waitLen []) (msg.length / 256) =
        (.waitLen [msg.length / 256], none) := rfl
    rw [tcp_frame_encode, tcp_read_stream_cons, h1]
    dsimp only
    rw [tcp_read_stream_cons, h2]
    dsimp only
    rw [h3]
    simp
  · intro b0 b1 hb0 hb1 _
    omega

/-- Witness for C3: the frame for the message `[1, 2, 3]`. -/
theorem tcp_length_prefix_framing_witness :
    tcp_read_stream (.waitLen []) (tcp_frame_encode [1, 2, 3]) =
      (.waitLen [], [[1, 2, 3]]) :=
  (tcp_length_prefix_framing [1, 2, 3] (by decide) (by decide)).1

theorem flush_take_drop (buf : List Nat) (cur w : Nat) :
    (buf.drop cur).take w ++ buf.drop (cur + w) = buf.drop cur := by
  rw [← List.drop_drop, List.take_append_drop]

theorem outStep_inv (s : TcpOutState) (op : OutOp) (h : OutInv s) :
    OutInv (outStep s op) := by
  obtain ⟨hflat, hbound, htail⟩ := h
  simp only [out_pending] at hflat
  cases op with
  | append buf =>
    refine ⟨?_, ?_, ?_⟩
    · simp only [outStep, out_pending, List.map_append, List.flatten_append,
        List.map_cons, List.map_nil, List.flatten_cons, List.flatten_nil,
        List.drop_zero, List.append_nil]
      rw [← List.append_assoc, hflat]
    · intro e he
      simp only [outStep, List.mem_append, List.mem_singleton] at he
      rcases he with he | he
      · exact hbound e he
      · subst he
        exact Nat.zero_le _
    · intro e he
      simp only [outStep] at he
      cases hc : s.output_chain with
      | nil =>
        rw [hc] at he
        simp at he
      | cons a l =>
        rw [hc] at he
        simp only [List.cons_append, List.tail_cons, List.mem_append,
          List.mem_singleton] at he
        rcases he with he | he
        · exact htail e (by rw [hc]; simpa using he)
        · subst he
          rfl
  | flush k =>
    cases hc : s.output_chain with
    | nil =>
      have hs : outStep s (.flush k) = s := by
        simp [outStep, hc]
      rw [hs]
      exact ⟨by simp only [out_pending]; exact hflat, hbound, htail⟩
    | cons e rest =>
      have hcur : e.cur_write ≤ e.write_buf.length :=
        hbound e (by rw [hc]; exact List.mem_cons_self e rest)
      have hrest0 : ∀ x ∈ rest, x.cur_write = 0 :=
        fun x hx => htail x (by rw [hc]; simpa using hx)
      have hrestb : ∀ x ∈ rest, x.cur_write ≤ x.write_buf.length :=
        fun x hx => hbound x (by rw [hc]; exact List.mem_cons_of_mem e hx)
      rw [hc] at hflat
      simp only [List.map_cons, List.flatten_cons] at hflat
      by_cases hev :
          e.write_buf.length ≤ e.cur_write + min k (e.write_buf.length - e.cur_write)
      · have hs : outStep s (.flush k) =
            { s with output_chain := rest,
                     emitted := s.emitted ++
                       (e.write_buf.drop e.cur_write).take
                         (min k (e.write_buf.length - e.cur_write)) } := by
          simp [outStep, hc, hev]
        have hfull : (e.write_buf.drop e.cur_write).take
            (min k (e.write_buf.length - e.cur_write)) = e.write_buf.drop e.cur_write := by
          apply List.take_of_length_le
          simp only [List.length_drop]
          omega
        rw [hs]
        refine ⟨?_, hrestb, ?_⟩
        · dsimp only [out_pending]
          rw [hfull, List.append_assoc, hflat]
        · intro x hx
          exact hrest0 x (List.mem_of_mem_tail hx)
      · have hs : outStep s (.flush k) =
            { s with
              output_chain := (⟨e.write_buf, e.cur_write + min k (e.write_buf.length - e.cur_write)⟩ : rdns_tcp_output_chain) :: rest,
              emitted := s.emitted ++ (e.write_buf.drop e.cur_write).take (min k (e.write_buf.length - e.cur_write)) } := by
          simp [outStep, hc, hev]
        rw [hs]
        refine ⟨?_, ?_, ?_⟩
        · dsimp only [out_pending]
          simp only [List.map_cons, List.flatten_cons]
          rw [← hflat, List.append_assoc]
          have key := flush_take_drop e.write_buf e.cur_write (min k (e.write_buf.length - e.cur_write))
          rw [← List.append_assoc ((e.write_buf.drop e.cur_write).take (min k (e.write_buf.length - e.cur_write))), key]
        · intro x hx
          rcases List.mem_cons.mp hx with hx2 | hx2
          · subst hx2
            dsimp only
            omega
          · exact hrestb x hx2
        · intro x hx
          exact hrest0 x (by simpa using hx)

theorem outFold_inv (ops : List OutOp) :
    ∀ s : TcpOutState, OutInv s → OutInv (ops.foldl outStep s) := by
  induction ops with
  | nil => exact fun s h => h
  | cons op rest ih => exact fun s h => ih _ (outStep_inv s op h)

theorem outRun_inv (ops : List OutOp) : OutInv (outRun ops) := by
  refine outFold_inv ops outInit ⟨?_, ?_, ?_⟩ <;> simp [outInit, out_pending]

/-- C4: at most one incoming message is in progress per channel at any time;
the outgoing write chain is flushed in FIFO insertion order — the emitted
bytes followed by the pending bytes always equal the concatenation of the
appended buffers in insertion order, and only the head entry is ever
partially written — an entry is removed only once fully written (on eviction
the flush has covered its whole remaining buffer), and new entries may be
appended at any time, including during a flush. -/
theorem tcp_output_chain_fifo :
    (∀ ops : List OutOp,
      (outRun ops).emitted ++ out_pending (outRun ops) = (outRun ops).appended.flatten ∧
      ∀ e ∈ (outRun ops).output_chain.tail, e.cur_write = 0) ∧
    (∀ (s : TcpOutState) (k : Nat) (e : rdns_tcp_output_chain)
        (rest : List rdns_tcp_output_chain),
      s.output_chain = e :: rest →
      (outStep s (.flush k)).output_chain = rest →
      e.write_buf.length ≤ e.cur_write + k ∧
      (outStep s (.flush k)).emitted = s.emitted ++ e.write_buf.drop e.cur_write) ∧
    (∀ (s : TcpOutState) (buf : List Nat),
      (outStep s (.append buf)).output_chain =
        s.output_chain ++ [{ write_buf := buf, cur_write := 0 }]) ∧
    (∀ rs : TcpReadState, tcp_in_progress rs ≤ 1) := by
  refine ⟨?_, ?_, ?_, ?_⟩
  · intro ops
    obtain ⟨hflat, _, htail⟩ := outRun_inv ops
    exact ⟨hflat, htail⟩
  · intro s k e rest hchain hdrop
    by_cases hev :
        e.write_buf.length ≤ e.cur_write + min k (e.write_buf.length - e.cur_write)
    · have hfull : (e.write_buf.drop e.cur_write).take
          (min k (e.write_buf.length - e.cur_write)) = e.write_buf.drop e.cur_write := by
        apply List.take_of_length_le
        simp only [List.length_drop]
        omega
      constructor
      · omega
      · simp [outStep, hchain, hev, hfull]
    · exfalso
      simp only [outStep, hchain, if_neg hev] at hdrop
      exact List.cons_ne_self _ _ hdrop
  · intro s buf
    rfl
  · intro rs
    cases rs <;> simp [tcp_in_progress]

/-- Witness for C4: evicting a half-written head entry emits exactly its
remaining bytes and requires the flush to cover them. -/
theorem tcp_output_chain_fifo_witness :
    (([7, 8] : List Nat)).length ≤ 1 + 5 ∧
    (outStep
        { output_chain := [{ write_buf := [7, 8], cur_write := 1 }],
          emitted := [9], appended := [[7, 8]] }
        (.flush 5)).emitted = [9] ++ ([7, 8] : List Nat).drop 1 :=
  tcp_output_chain_fifo.2.1
    { output_chain := [{ write_buf := [7, 8], cur_write := 1 }],
      emitted := [9], appended := [[7, 8]] }
    5 { write_buf := [7, 8], cur_write := 1 } [] (by decide) (by decide)

theorem idxStep_nodup (s : ChanIndex) (op : IdxOp)
    (h : (tbl_keys s.tbl).Nodup) : (tbl_keys (idxStep s op).tbl).Nodup := by
  cases op with
  | register id req =>
    by_cases hid : id ∈ tbl_keys s.tbl
    · have hput : kh_put s.tbl id req = .dup_id := by
        simp [kh_put, hid]
      simpa [idxStep, hput] using h
    · have hput : kh_put s.tbl id req = .ok (s.tbl ++ [(id, req)]) := by
        simp [kh_put, hid]
      simp only [idxStep, hput]
      simp only [tbl_keys, List.map_append, List.map_cons, List.map_nil] at *
      rw [List.nodup_append]
      refine ⟨h, List.nodup_singleton id, ?_⟩
      simp only [List.disjoint_singleton]
      exact hid
  | deregister id =>
    have hsub : List.Sublist (kh_del s.tbl id) s.tbl := List.filter_sublist s.tbl
    exact ((hsub.map Prod.fst).nodup) h

theorem idxFold_nodup (ops : List IdxOp) :
    ∀ s : ChanIndex, (tbl_keys s.tbl).Nodup →
      (tbl_keys (ops.foldl idxStep s).tbl).Nodup := by
  induction ops with
  | nil => exact fun s h => h
  | cons op rest ih => exact fun s h => ih _ (idxStep_nodup s op h)

/-- C5: the per-channel mapping from transaction id to request has unique
keys after any sequence of registrations and deregistrations; registering a
transaction id already present is detected as a duplicate and treated as a
fatal contract violation — the table is left unchanged, the failure only
counted, never retried. -/
theorem requests_hash_unique_keys :
    (∀ ops : List IdxOp, (tbl_keys (idxRun ops).tbl).Nodup) ∧
    (∀ (t : RequestsTable) (id : Int) (req : Nat),
      id ∈ tbl_keys t → kh_put t id req = .dup_id) ∧
    (∀ (s : ChanIndex) (id : Int) (req : Nat),
      id ∈ tbl_keys s.tbl →
      idxStep s (.register id req) = { s with fatal_dup := s.fatal_dup + 1 }) := by
  refine ⟨?_, ?_, ?_⟩
  · intro ops
    refine idxFold_nodup ops { tbl := [], fatal_dup := 0 } ?_
    simp [tbl_keys]
  · intro t id req hid
    simp [kh_put, hid]
  · intro s id req hid
    have hput : kh_put s.tbl id req = .dup_id := by
      simp [kh_put, hid]
    simp [idxStep, hput]

/-- Witness for C5: registering transaction id 5 twice on one channel is
reported as a duplicate. -/
theorem requests_hash_unique_keys_witness :
    kh_put [((5 : Int), (1 : Nat))] 5 2 = .dup_id :=
  requests_hash_unique_keys.2.1 [((5 : Int), (1 : Nat))] 5 2 (by decide)

end Rdns
